import Mathlib

/-!
Verification development for the ai-insure-agent backend.

This file gives a shallow embedding, in Lean 4, of the lead-qualification,
conversation-memory and premium-calculation core of the repository
(`backend/src/services/AIService.ts`, `backend/src/services/LeadService.ts`),
and proves or refutes the specification claims about it.

Conventions of the embedding:
* JavaScript numbers are modelled as `ℚ` (all constants appearing in the code
  are decimal fractions, exactly representable); `Math.round` becomes
  `jsRound`, `⌊x + 1/2⌋`.
* JavaScript truthiness on optional fields (`a || b`) is modelled explicitly:
  a missing field, the number `0` and the empty string are falsy; an array is
  always truthy.
* The dynamic parameter dictionaries (`params : any`) are modelled as
  association lists `List (String × JsVal)`.
* Fallible steps (the LLM call inside the lead scorer) are modelled as an
  `Option` input: `none` is the thrown/unparseable case handled by `catch`.
-/

namespace InsureAgent

/-- JavaScript `Math.round` on rationals: round half up, `⌊x + 1/2⌋`. -/
def jsRound (q : ℚ) : ℤ := ⌊q + 1/2⌋

/-- Role of a conversation message (`role: 'user' | 'assistant'`). -/
inductive Role where
  | user
  | assistant
deriving DecidableEq, Repr

/-- A conversation message, from the `ConversationMessage` interface.
The `timestamp: Date` field is wall-clock data and is not modelled. -/
structure Msg where
  role : Role
  content : String
deriving DecidableEq, Repr

/-- Shorthand for a user-role message. -/
def mkU (s : String) : Msg := ⟨Role.user, s⟩

/-- Shorthand for an assistant-role message. -/
def mkA (s : String) : Msg := ⟨Role.assistant, s⟩

/-- The truncation step shared by all history updaters:
`if (history.length > bound) history.splice(0, history.length - bound)`. -/
def boundHistory (bound : ℕ) (h : List Msg) : List Msg :=
  if h.length > bound then h.drop (h.length - bound) else h

/-- AIService.updateConversationHistory (AIService.ts, lines 1018-1047):
pushes the user message, pushes the assistant message only when
`aiResponse` is truthy (non-empty), then keeps the last 20 entries. -/
def updateConversationHistory (h : List Msg) (userMessage aiResponse : String) :
    List Msg :=
  let h1 := h ++ [mkU userMessage]
  let h2 := if aiResponse ≠ "" then h1 ++ [mkA aiResponse] else h1
  boundHistory 20 h2

/-- AIService.updateConversationHistoryResponse (lines 1052-1070):
pushes the assistant message only, then keeps the last 20 entries. -/
def updateConversationHistoryResponse (h : List Msg) (aiResponse : String) :
    List Msg :=
  boundHistory 20 (h ++ [mkA aiResponse])

/-- The legacy AIService.updateConversationHistory (lines 2308-2331):
pushes the user and assistant messages unconditionally,
then keeps the last 10 entries. -/
def updateConversationHistoryLegacy (h : List Msg) (userMessage aiResponse : String) :
    List Msg :=
  boundHistory 10 (h ++ [mkU userMessage, mkA aiResponse])

/-- The list a rich-variant update appends before truncation. -/
def appendedRich (h : List Msg) (userMessage aiResponse : String) : List Msg :=
  let h1 := h ++ [mkU userMessage]
  if aiResponse ≠ "" then h1 ++ [mkA aiResponse] else h1

theorem boundHistory_length (bound : ℕ) (h : List Msg) :
    (boundHistory bound h).length = min h.length bound := by
  unfold boundHistory
  split
  · simp only [List.length_drop]
    omega
  · omega

theorem boundHistory_suffix (bound : ℕ) (h : List Msg) :
    (boundHistory bound h).IsSuffix h := by
  unfold boundHistory
  split
  · exact List.drop_suffix _ _
  · exact List.suffix_refl h

/-- One step of the per-user history fold: the rich update applied to
one inbound (user message, assistant reply) pair. -/
def historyStep (h : List Msg) (p : String × String) : List Msg :=
  updateConversationHistory h p.1 p.2

theorem historyStep_le (h : List Msg) (p : String × String) :
    (historyStep h p).length ≤ 20 := by
  have := boundHistory_length 20 (appendedRich h p.1 p.2)
  have e : historyStep h p = boundHistory 20 (appendedRich h p.1 p.2) := rfl
  rw [e, this]
  omega

theorem foldl_historyStep_le (ops : List (String × String)) (acc : List Msg)
    (hacc : acc.length ≤ 20) : (ops.foldl historyStep acc).length ≤ 20 := by
  induction ops generalizing acc with
  | nil => simpa using hacc
  | cons p rest ih =>
    simp only [List.foldl_cons]
    exact ih (historyStep acc p) (historyStep_le acc p)

/-- C3: after any conversation-history update the stored per-user history has
length at most 20 (at most 10 for the simplified legacy variant), and the
retained entries are exactly the most recent bound-many messages of the
appended sequence in their original relative order (the result is a suffix of
the appended sequence of the right length); consequently any sequence of
updates starting from the empty history keeps the length at most 20. -/
theorem conversationHistory_bounded_fifo :
    (∀ (h : List Msg) (u a : String),
      (updateConversationHistory h u a).length ≤ 20 ∧
      (updateConversationHistory h u a).IsSuffix (appendedRich h u a) ∧
      (updateConversationHistory h u a).length = min (appendedRich h u a).length 20) ∧
    (∀ (h : List Msg) (a : String),
      (updateConversationHistoryResponse h a).length ≤ 20 ∧
      (updateConversationHistoryResponse h a).IsSuffix (h ++ [mkA a]) ∧
      (updateConversationHistoryResponse h a).length = min (h ++ [mkA a]).length 20) ∧
    (∀ (h : List Msg) (u a : String),
      (updateConversationHistoryLegacy h u a).length ≤ 10 ∧
      (updateConversationHistoryLegacy h u a).IsSuffix (h ++ [mkU u, mkA a]) ∧
      (updateConversationHistoryLegacy h u a).length
        = min (h ++ [mkU u, mkA a]).length 10) ∧
    (∀ ops : List (String × String),
      (ops.foldl historyStep []).length ≤ 20) := by
  refine ⟨?_, ?_, ?_, ?_⟩
  · intro h u a
    have e : updateConversationHistory h u a
        = boundHistory 20 (appendedRich h u a) := rfl
    rw [e, boundHistory_length]
    exact ⟨by omega, boundHistory_suffix _ _, rfl⟩
  · intro h a
    have e : updateConversationHistoryResponse h a
        = boundHistory 20 (h ++ [mkA a]) := rfl
    rw [e, boundHistory_length]
    exact ⟨by omega, boundHistory_suffix _ _, rfl⟩
  · intro h u a
    have e : updateConversationHistoryLegacy h u a
        = boundHistory 10 (h ++ [mkU u, mkA a]) := rfl
    rw [e, boundHistory_length]
    exact ⟨by omega, boundHistory_suffix _ _, rfl⟩
  · intro ops
    exact foldl_historyStep_le ops [] (by simp)

/-! ## Lead scoring (AIService.shouldCaptureLead / analyzeLeadCaptureIntent) -/

/-- The raw object parsed from the LLM completion inside the lead scorer
(`JSON.parse(analysisText || '\x7b\x7d')`): every field may be absent. -/
structure RawLead where
  shouldCapture : Option Bool
  confidence : Option ℚ
  score : Option ℚ
  reason : Option String
  riskFactors : Option (List String)
  positiveSignals : Option (List String)
deriving DecidableEq, Repr

/-- Structural model of the `reason` strings the scorer builds: each
constructor corresponds to one template of the source. -/
inductive Reason where
  | fromAnalysis (s : String)
  | defaultReason
  | belowThreshold (score threshold : ℚ) (isNew : Bool)
  | firstMessageGuard (inner : Reason)
  | analysisFailed
deriving DecidableEq, Repr

/-- The `LeadAnalysisResult` produced by the scorer. -/
structure LeadAnalysisResult where
  shouldCapture : Bool
  confidence : ℚ
  score : ℚ
  reason : Reason
  riskFactors : List String
  positiveSignals : List String
deriving DecidableEq, Repr

/-- JavaScript `x || d` on an optional number: a missing field and the
number 0 are falsy. -/
def jsOrQ (x : Option ℚ) (d : ℚ) : ℚ :=
  match x with
  | none => d
  | some v => if v = 0 then d else v

/-- JavaScript `Math.min` on two rationals. -/
def jsMin (a b : ℚ) : ℚ := if a ≤ b then a else b

/-- JavaScript `Math.max` on two rationals. -/
def jsMax (a b : ℚ) : ℚ := if a ≤ b then b else a

/-- The clamped score `Math.min(10.0, Math.max(0.0, leadAnalysis.score || 0.0))`. -/
def validatedScore (raw : RawLead) : ℚ := jsMin 10 (jsMax 0 (jsOrQ raw.score 0))

/-- The clamped confidence
`Math.min(1.0, Math.max(0.0, leadAnalysis.confidence || 0.5))`. -/
def validatedConfidence (raw : RawLead) : ℚ :=
  jsMin 1 (jsMax 0 (jsOrQ raw.confidence (1/2)))

/-- The conversation-aware threshold `messageCount < 2 ? 8.0 : 6.5`. -/
def baseThreshold (messageCount : ℕ) : ℚ := if messageCount < 2 then 8 else 13/2

/-- JavaScript `reason || 'Conversation-aware analysis completed'`:
a missing field and the empty string are falsy. -/
def jsOrReason (x : Option String) : Reason :=
  match x with
  | none => Reason.defaultReason
  | some s => if s = "" then Reason.defaultReason else Reason.fromAnalysis s

/-- The validation and threshold logic shared verbatim by
AIService.shouldCaptureLead (AIService.ts, lines 917-943) and
analyzeLeadCaptureIntent (lines 2266-2292): clamp confidence to [0,1] and
score to [0,10], force `shouldCapture := false` below the
conversation-aware threshold (8.0 when `messageCount < 2`, else 6.5), and
additionally force `false` when `messageCount = 0` and the score is
below 8.5. -/
def validateLeadAnalysis (raw : RawLead) (messageCount : ℕ) : LeadAnalysisResult :=
  let r0 : LeadAnalysisResult :=
    { shouldCapture := raw.shouldCapture.getD false
      confidence := validatedConfidence raw
      score := validatedScore raw
      reason := jsOrReason raw.reason
      riskFactors := raw.riskFactors.getD []
      positiveSignals := raw.positiveSignals.getD [] }
  let threshold : ℚ := baseThreshold messageCount
  let r1 :=
    if r0.score < threshold then
      { r0 with shouldCapture := false
                reason := Reason.belowThreshold r0.score threshold
                  (Decidable.decide (messageCount < 2)) }
    else r0
  if messageCount = 0 ∧ r1.score < 17/2 then
    { r1 with shouldCapture := false
              reason := Reason.firstMessageGuard r1.reason }
  else r1

/-- The result of the `catch` branch of both scorers (AIService.ts,
lines 945-956 and 2294-2306). -/
def leadFallbackResult : LeadAnalysisResult :=
  { shouldCapture := false
    confidence := 1/10
    score := 0
    reason := Reason.analysisFailed
    riskFactors := ["AI analysis unavailable"]
    positiveSignals := [] }

/-- AIService.shouldCaptureLead: the LLM step either yields a parsed raw
object (`some raw`) or throws / returns unparseable content (`none`), in
which case the catch branch returns the conservative fallback. -/
def shouldCaptureLeadModel (llm : Option RawLead) (messageCount : ℕ) :
    LeadAnalysisResult :=
  match llm with
  | some raw => validateLeadAnalysis raw messageCount
  | none => leadFallbackResult

/-- AIService.analyzeLeadCaptureIntent (lines 2175-2306): its validation,
threshold and catch logic is line-for-line the same as shouldCaptureLead. -/
def analyzeLeadCaptureIntentModel (llm : Option RawLead) (messageCount : ℕ) :
    LeadAnalysisResult :=
  shouldCaptureLeadModel llm messageCount

/-- The capture threshold effectively enforced for a given exchange count:
8.5 on the very first message, 8.0 for fewer than two prior exchanges,
6.5 otherwise. -/
def effectiveCaptureThreshold (messageCount : ℕ) : ℚ :=
  if messageCount = 0 then 17/2 else if messageCount < 2 then 8 else 13/2

theorem validateLeadAnalysis_score (raw : RawLead) (mc : ℕ) :
    (validateLeadAnalysis raw mc).score = validatedScore raw := by
  simp only [validateLeadAnalysis]
  split_ifs <;> rfl

theorem validateLeadAnalysis_shouldCapture (raw : RawLead) (mc : ℕ) :
    (validateLeadAnalysis raw mc).shouldCapture =
      if validatedScore raw < baseThreshold mc then false
      else if mc = 0 ∧ validatedScore raw < 17/2 then false
      else raw.shouldCapture.getD false := by
  simp only [validateLeadAnalysis]
  split_ifs <;> rfl

theorem effectiveCaptureThreshold_of_pos (mc : ℕ) (h0 : mc ≠ 0) :
    effectiveCaptureThreshold mc = baseThreshold mc := by
  simp [effectiveCaptureThreshold, baseThreshold, h0]

/-- C1: the lead scorer forces `shouldCapture := false` whenever the clamped
score is below the conversation-depth-aware threshold (8.5 at exchange
count 0, 8.0 below two exchanges, 6.5 from two exchanges on); when the
result does capture, the score meets the threshold and the underlying raw
analysis itself said `shouldCapture: true` (the threshold is necessary, not
sufficient); in particular a validated score of exactly 8 at exchange
count 0 never captures.  The same function is the model of both
shouldCaptureLead and analyzeLeadCaptureIntent. -/
theorem leadCapture_threshold_gate (raw : RawLead) (mc : ℕ) :
    ((validateLeadAnalysis raw mc).score < effectiveCaptureThreshold mc →
      (validateLeadAnalysis raw mc).shouldCapture = false) ∧
    ((validateLeadAnalysis raw mc).shouldCapture = true →
      effectiveCaptureThreshold mc ≤ (validateLeadAnalysis raw mc).score ∧
      raw.shouldCapture = some true) ∧
    shouldCaptureLeadModel (some raw) mc = validateLeadAnalysis raw mc ∧
    analyzeLeadCaptureIntentModel (some raw) mc = validateLeadAnalysis raw mc ∧
    ((validateLeadAnalysis raw 0).score = 8 →
      (validateLeadAnalysis raw 0).shouldCapture = false) := by
  refine ⟨?_, ?_, rfl, rfl, ?_⟩
  · intro hlt
    rw [validateLeadAnalysis_score] at hlt
    rw [validateLeadAnalysis_shouldCapture]
    split_ifs with h1 h2
    · rfl
    · rfl
    · exfalso
      by_cases h0 : mc = 0
      · subst h0
        simp only [effectiveCaptureThreshold, if_pos rfl] at hlt
        exact h2 ⟨rfl, hlt⟩
      · rw [effectiveCaptureThreshold_of_pos mc h0] at hlt
        exact h1 hlt
  · intro hcap
    rw [validateLeadAnalysis_shouldCapture] at hcap
    rw [validateLeadAnalysis_score]
    split_ifs at hcap with h1 h2
    · refine ⟨?_, ?_⟩
      · by_cases h0 : mc = 0
        · subst h0
          simp only [effectiveCaptureThreshold, if_pos rfl]
          exact not_lt.mp (fun hs => h2 ⟨rfl, hs⟩)
        · rw [effectiveCaptureThreshold_of_pos mc h0]
          exact not_lt.mp h1
      · cases hr : raw.shouldCapture <;> simp_all
  · intro h8
    rw [validateLeadAnalysis_score] at h8
    rw [validateLeadAnalysis_shouldCapture]
    split_ifs with h1 h2
    · rfl
    · rfl
    · exact absurd (⟨rfl, by rw [h8]; norm_num⟩ : 0 = 0 ∧ validatedScore raw < 17/2) h2

/-- Raw analysis of a hot lead at exchange count 2, used as the witness. -/
def rawHot : RawLead :=
  { shouldCapture := some true
    confidence := some (9/10)
    score := some 9
    reason := some "strong buying intent"
    riskFactors := some []
    positiveSignals := some ["quote request"] }

theorem leadCapture_threshold_gate_witness :
    effectiveCaptureThreshold 2 ≤ (validateLeadAnalysis rawHot 2).score ∧
    rawHot.shouldCapture = some true :=
  (leadCapture_threshold_gate rawHot 2).2.1 (by
    rw [validateLeadAnalysis_shouldCapture]
    norm_num [validatedScore, jsMin, jsMax, jsOrQ, baseThreshold, rawHot])

/-- C7: on internal failure of the LLM step (`none`), both lead scorers
return exactly the conservative fallback: `shouldCapture = false`,
`score = 0`, `confidence = 0.1`, with the degraded-path reason — a failure
never yields `shouldCapture = true`. -/
theorem leadScorer_fails_closed :
    (∀ mc : ℕ,
      shouldCaptureLeadModel none mc = leadFallbackResult ∧
      analyzeLeadCaptureIntentModel none mc = leadFallbackResult ∧
      (shouldCaptureLeadModel none mc).shouldCapture = false) ∧
    leadFallbackResult =
      { shouldCapture := false
        confidence := 1/10
        score := 0
        reason := Reason.analysisFailed
        riskFactors := ["AI analysis unavailable"]
        positiveSignals := [] } := by
  exact ⟨fun mc => ⟨rfl, rfl, rfl⟩, rfl⟩

/-! ## Premium calculation (AIService.calculatePremium and the orchestrator) -/

/-- A dynamic JavaScript value as it appears in the ad-hoc parameter
dictionaries (`params : any`): the extractors only ever store numbers,
strings and string arrays. -/
inductive JsVal where
  | num (q : ℚ)
  | str (s : String)
  | arr (l : List String)
deriving DecidableEq, Repr

/-- JavaScript truthiness of a value: 0 and the empty string are falsy,
arrays are always truthy. -/
def truthy : JsVal → Bool
  | JsVal.num q => Decidable.decide (q ≠ 0)
  | JsVal.str s => Decidable.decide (s ≠ "")
  | JsVal.arr _ => true

/-- A parameter dictionary, keyed by field name. -/
abbrev Params := List (String × JsVal)

/-- Field access `params[k]`. -/
def getParam (p : Params) (k : String) : Option JsVal :=
  (p.find? (fun kv => kv.1 == k)).map (fun kv => kv.2)

/-- Truthiness of an optional field (`!!params[k]`): absent is falsy. -/
def truthyO (x : Option JsVal) : Bool :=
  match x with
  | none => false
  | some v => truthy v

/-- A JavaScript `||`-chain over numeric fields,
`params.k1 || params.k2 || …`: the first present, non-zero numeric field
wins.  (The extractors only ever store numbers under these keys.) -/
def pickNumO (p : Params) (keys : List String) : Option ℚ :=
  match keys with
  | [] => none
  | k :: rest =>
    match getParam p k with
    | some (JsVal.num q) => if q = 0 then pickNumO p rest else some q
    | _ => pickNumO p rest

/-- An `||`-chain over numeric fields ending in a default literal. -/
def pickNum (p : Params) (keys : List String) (d : ℚ) : ℚ :=
  (pickNumO p keys).getD d

/-- An `||`-chain over string fields ending in a default literal: the first
present, non-empty string field wins. -/
def pickStr (p : Params) (keys : List String) (d : String) : String :=
  match keys with
  | [] => d
  | k :: rest =>
    match getParam p k with
    | some (JsVal.str s) => if s = "" then pickStr p rest d else s
    | _ => pickStr p rest d

/-- An `||`-chain over array fields ending in `[]`: arrays are truthy even
when empty. -/
def pickArr (p : Params) (keys : List String) : List String :=
  match keys with
  | [] => []
  | k :: rest =>
    match getParam p k with
    | some (JsVal.arr l) => l
    | _ => pickArr p rest

/-- ASCII lower-casing of one character, as JavaScript `toLowerCase` acts
on the ASCII texts this code handles. -/
def charLower (c : Char) : Char :=
  if 65 ≤ c.toNat ∧ c.toNat ≤ 90 then Char.ofNat (c.toNat + 32) else c

/-- ASCII lower-casing of a string (`s.toLowerCase()`). -/
def lowerStr (s : String) : String := String.mk (s.data.map charLower)

/-- AIService.hasRequiredAutoParams (AIService.ts, lines 1460-1462):
`!!(params.vehicleValue && params.age && params.location)` — it checks
`age`, never `driverAge`, and does not check `coverageType`. -/
def hasRequiredAutoParams (p : Params) : Bool :=
  truthyO (getParam p "vehicleValue") && truthyO (getParam p "age") &&
    truthyO (getParam p "location")

/-- AIService.hasRequiredHealthParams (lines 1464-1466): `!!(params.age)`. -/
def hasRequiredHealthParams (p : Params) : Bool :=
  truthyO (getParam p "age")

/-- The argument object AIService.calculatePremium builds for the auto
calculator (lines 647-655), with its `||`-fallbacks and defaults. -/
structure AutoArgs where
  vehicleValue : ℚ
  vehicleAge : Option ℚ
  driverAge : ℚ
  location : String
  coverageType : String
  drivingHistory : String
  securityFeatures : List String
deriving DecidableEq, Repr

/-- Builds the auto-calculator arguments exactly as the source spreads
them: `coverageType` defaults to `'comprehensive'` and `drivingHistory`
to `'clean'` when absent. -/
def autoArgsOf (p : Params) : AutoArgs :=
  { vehicleValue := pickNum p ["vehicleValue", "vehicle_value"] 0
    vehicleAge := pickNumO p ["vehicleAge", "vehicle_age"]
    driverAge := pickNum p ["driverAge", "driver_age", "age"] 0
    location := pickStr p ["location"] ""
    coverageType := pickStr p ["coverageType", "coverage_type"] "comprehensive"
    drivingHistory := pickStr p ["drivingHistory", "driving_history"] "clean"
    securityFeatures := pickArr p ["securityFeatures", "security_features"] }

/-- A premium breakdown object: a dictionary of named numeric
contributors, as in the JavaScript `breakdown` objects. -/
abbrev Breakdown := List (String × ℚ)

/-- Field access on a breakdown object. -/
def breakdownNum (bd : Breakdown) (k : String) : Option ℚ :=
  (bd.find? (fun kv => kv.1 == k)).map (fun kv => kv.2)

/-- Result of a premium calculation: `{success: true, premium, breakdown}`
or `{success: false, error}`. -/
inductive CalcResult where
  | success (premium : ℤ) (breakdown : Breakdown)
  | failure (error : String)
deriving DecidableEq, Repr

/-- Whether a calculation result is a successful quote. -/
def CalcResult.isSuccess : CalcResult → Bool
  | CalcResult.success _ _ => true
  | CalcResult.failure _ => false

/-- Modelled from the spec: `PremiumCalculationService.calculateAutoPremium`
is defined in `backend/src/data/enhanced-knowledge-base.ts`, which is not
among the provided sources.  Following spec section 4.3 (Auto), the base
premium is the vehicle value times a rate, adjusted by multiplicative
factors for driver-age bracket, location risk, coverage type (third-party
a small fraction of comprehensive), driving history and security-feature
discounts, with each multiplier exposed in the breakdown.  The concrete
rates below are representative; the claims settled against this function
depend only on its totality and on its breakdown keys. -/
def calculateAutoPremium (a : AutoArgs) : ℤ × Breakdown :=
  let base : ℚ := a.vehicleValue * 3/100
  let ageM : ℚ :=
    if a.driverAge < 25 then 7/5 else if a.driverAge < 35 then 11/10
    else if a.driverAge < 60 then 1 else 6/5
  let locM : ℚ := if a.location = "accra" then 6/5 else 1
  let covM : ℚ := if a.coverageType = "third_party" then 3/100 else 1
  let histM : ℚ := if a.drivingHistory = "clean" then 9/10 else 1
  let secM : ℚ := if a.securityFeatures.isEmpty then 1 else 9/10
  (jsRound (base * ageM * locM * covM * histM * secM),
    [("basePremium", base), ("ageMultiplier", ageM), ("locationMultiplier", locM),
     ("coverageMultiplier", covM), ("historyMultiplier", histM),
     ("securityMultiplier", secM)])

/-- Modelled from the spec: `PremiumCalculationService.calculateHealthPremium`
is likewise defined outside the provided sources.  Following spec
section 4.3 (Health): base rate by plan tier, times a family-size
multiplier, adjusted for smoking status; total on all inputs. -/
def calculateHealthPremium (age : ℚ) (planType : String) (familySize : ℚ)
    (smokingStatus : String) : ℤ × Breakdown :=
  let base : ℚ :=
    if planType = "basic" then 1200 else if planType = "premium" then 4800 else 2400
  let famM : ℚ := jsMax 1 familySize
  let smokeM : ℚ := if smokingStatus = "smoker" then 3/2 else 1
  let ageM : ℚ := if age < 40 then 1 else 3/2
  (jsRound (base * famM * smokeM * ageM),
    [("basePlanRate", base), ("familyMultiplier", famM),
     ("smokingMultiplier", smokeM), ("ageMultiplier", ageM)])

/-- The life-rate ternary chain of the life branch of
AIService.calculatePremium (line 680):
`age < 35 ? 3.5 : age < 45 ? 8.5 : age < 55 ? 18.5 : 37.5`. -/
def lifeRatePerThousand (age : ℚ) : ℚ :=
  if age < 35 then 7/2 else if age < 45 then 17/2 else if age < 55 then 37/2 else 75/2

/-- The `switch (insuranceType.toLowerCase())` body of
AIService.calculatePremium (lines 640-707).  The auto and health cases run
only behind their `hasRequired…Params` guards and otherwise fall through
(with the unmatched-type default) to
`{success: false, error: 'Missing required parameters for calculation'}`;
the life case has no guard at all and defaults `age` to 30 and the
coverage amount to 500000 before computing. -/
def calcSwitch (tyLower : String) (p : Params) : CalcResult :=
  match tyLower with
  | "auto" =>
    if hasRequiredAutoParams p then
      let r := calculateAutoPremium (autoArgsOf p)
      CalcResult.success r.1 r.2
    else CalcResult.failure "Missing required parameters for calculation"
  | "health" =>
    if hasRequiredHealthParams p then
      let r := calculateHealthPremium (pickNum p ["age"] 0)
        (pickStr p ["planType", "plan_type"] "standard")
        (pickNum p ["familySize", "family_size"] 1)
        (pickStr p ["smokingStatus", "smoking_status"] "non_smoker")
      CalcResult.success r.1 r.2
    else CalcResult.failure "Missing required parameters for calculation"
  | "life" =>
    let age := pickNum p ["age"] 30
    let coverage := pickNum p ["coverage", "coverageAmount"] 500000
    let rate := lifeRatePerThousand age
    let annualPremium := coverage / 1000 * rate
    CalcResult.success (jsRound annualPremium)
      [("baseCoverage", coverage), ("ageRate", rate),
       ("annualPremium", ((jsRound annualPremium : ℤ) : ℚ)),
       ("monthlyPremium", ((jsRound (annualPremium / 12) : ℤ) : ℚ))]
  | _ => CalcResult.failure "Missing required parameters for calculation"

/-- AIService.calculatePremium: lower-cases the insurance type, then runs
the switch. -/
def calculatePremiumModel (insuranceType : String) (p : Params) : CalcResult :=
  calcSwitch (lowerStr insuranceType) p

/-- AIService.getRequiredParametersForType (lines 1314-1327). -/
def getRequiredParametersForType (insuranceType : String) : List String :=
  match lowerStr insuranceType with
  | "auto" => ["vehicleValue", "age", "location", "coverageType"]
  | "health" => ["age", "planType"]
  | "life" => ["age", "coverage"]
  | "business" => ["businessType", "revenue", "employees"]
  | _ => ["age"]

/-- The orchestrator's missing-field computation
(`requiredParams.filter(param => !allParams[param])`, line 343). -/
def missingRequired (insuranceType : String) (p : Params) : List String :=
  (getRequiredParametersForType insuranceType).filter
    (fun k => !truthyO (getParam p k))

/-- The question switch of generateParameterCollectionMessage
(lines 1336-1357): only these six field names produce a question; the
business fields (`businessType`, `revenue`, `employees`) have no case. -/
def questionFor (k : String) : Option String :=
  match k with
  | "vehicleValue" => some "What is the current value of your vehicle? (e.g., GH₵ 50,000)"
  | "age" => some "What is your age?"
  | "location" => some "Which city are you based in? (e.g., Accra, Kumasi, Tamale)"
  | "coverageType" => some "Would you prefer comprehensive coverage or third-party only?"
  | "planType" => some "Which health plan interests you: Basic, Standard, or Premium?"
  | "coverage" => some "How much life insurance coverage would you like? (e.g., GH₵ 500,000)"
  | _ => none

/-- The response shapes AIService.handlePremiumCalculation can produce. -/
inductive OrchestratorResponse where
  | followUp
  | askInsuranceType
  | collectParams (insuranceType : String) (missing : List String)
      (questions : List String)
  | quote (premium : ℤ) (breakdown : Breakdown) (insuranceType : String)
  | calcFailed (error : String)
deriving DecidableEq, Repr

/-- AIService.handlePremiumCalculation (lines 301-404): follow-ups are
delegated; without an insurance type the user is asked for one; with
missing required parameters a parameter-collection prompt is emitted,
carrying one question per missing field that has a case in the question
switch; only otherwise is the premium calculated. -/
def handlePremiumCalculationModel (isFollowUp : Bool)
    (insuranceType : Option String) (allParams : Params) : OrchestratorResponse :=
  if isFollowUp then OrchestratorResponse.followUp
  else
    match insuranceType with
    | none => OrchestratorResponse.askInsuranceType
    | some ty =>
      let missing := missingRequired ty allParams
      if missing ≠ [] then
        OrchestratorResponse.collectParams ty missing (missing.filterMap questionFor)
      else
        match calculatePremiumModel ty allParams with
        | CalcResult.success prem bd => OrchestratorResponse.quote prem bd ty
        | CalcResult.failure e => OrchestratorResponse.calcFailed e

theorem lowerStr_auto : lowerStr "auto" = "auto" := by decide

theorem lowerStr_health : lowerStr "health" = "health" := by decide

theorem lowerStr_life : lowerStr "life" = "life" := by decide

theorem lowerStr_business : lowerStr "business" = "business" := by decide

/-- C2 counterexample: for insurance type `life` with the empty parameter
dictionary both required fields (`age`, `coverage`) are missing, yet
calculatePremium returns a successful quote, computed from the guessed
defaults `age = 30` and `coverage = 500000` — refuting the claim that it
never returns a quote when a required field is missing. -/
theorem calculatePremium_life_defaults_counterexample :
    missingRequired "life" [] = ["age", "coverage"] ∧
    calculatePremiumModel "life" [] =
      CalcResult.success 1750
        [("baseCoverage", 500000), ("ageRate", 7/2),
         ("annualPremium", 1750), ("monthlyPremium", 146)] := by
  constructor
  · decide
  · simp only [calculatePremiumModel, lowerStr_life, calcSwitch]
    norm_num [pickNum, pickNumO, getParam, lifeRatePerThousand, jsRound]

/-- C2 (amended): for auto a missing (or falsy) `vehicleValue`, `age` or
`location` makes calculatePremium return the structured failure, for
health a missing `age` does, and for business it always fails; the
orchestrator checks the full required-field list before calculating and,
when any required field is missing, responds with a parameter-collection
prompt whose question list names every missing field for the auto, health
and life types, while the business field names produce no questions; the
life branch of calculatePremium itself, however, quotes from defaults
(see the counterexample). -/
theorem premium_missing_params_amended (p : Params) :
    (truthyO (getParam p "vehicleValue") = false ∨
        truthyO (getParam p "age") = false ∨
        truthyO (getParam p "location") = false →
      calculatePremiumModel "auto" p =
        CalcResult.failure "Missing required parameters for calculation") ∧
    (truthyO (getParam p "age") = false →
      calculatePremiumModel "health" p =
        CalcResult.failure "Missing required parameters for calculation") ∧
    (calculatePremiumModel "business" p =
      CalcResult.failure "Missing required parameters for calculation") ∧
    (∀ ty, ty = "auto" ∨ ty = "health" ∨ ty = "life" →
      missingRequired ty p ≠ [] →
      handlePremiumCalculationModel false (some ty) p =
        OrchestratorResponse.collectParams ty (missingRequired ty p)
          ((missingRequired ty p).filterMap questionFor) ∧
      ∀ k ∈ missingRequired ty p, (questionFor k).isSome = true) ∧
    (missingRequired "business" p ≠ [] →
      handlePremiumCalculationModel false (some "business") p =
        OrchestratorResponse.collectParams "business"
          (missingRequired "business" p) []) := by
  refine ⟨?_, ?_, ?_, ?_, ?_⟩
  · intro hcase
    simp only [calculatePremiumModel, lowerStr_auto, calcSwitch]
    have hreq : hasRequiredAutoParams p = false := by
      rcases hcase with h | h | h <;> simp [hasRequiredAutoParams, h]
    simp [hreq]
  · intro hcase
    simp only [calculatePremiumModel, lowerStr_health, calcSwitch]
    have hreq : hasRequiredHealthParams p = false := by
      simp [hasRequiredHealthParams, hcase]
    simp [hreq]
  · simp only [calculatePremiumModel, lowerStr_business, calcSwitch]
    rfl
  · intro ty hty hm
    constructor
    · simp [handlePremiumCalculationModel, hm]
    · intro k hk
      have hk2 : k ∈ getRequiredParametersForType ty :=
        List.mem_of_mem_filter hk
      rcases hty with rfl | rfl | rfl
      · rw [show getRequiredParametersForType "auto"
            = ["vehicleValue", "age", "location", "coverageType"] by decide] at hk2
        simp only [List.mem_cons, List.not_mem_nil, or_false] at hk2
        rcases hk2 with rfl | rfl | rfl | rfl <;> rfl
      · rw [show getRequiredParametersForType "health"
            = ["age", "planType"] by decide] at hk2
        simp only [List.mem_cons, List.not_mem_nil, or_false] at hk2
        rcases hk2 with rfl | rfl <;> rfl
      · rw [show getRequiredParametersForType "life"
            = ["age", "coverage"] by decide] at hk2
        simp only [List.mem_cons, List.not_mem_nil, or_false] at hk2
        rcases hk2 with rfl | rfl <;> rfl
  · intro hm
    have hq : (missingRequired "business" p).filterMap questionFor = [] := by
      rw [List.filterMap_eq_nil_iff]
      intro k hk
      have hk2 : k ∈ getRequiredParametersForType "business" :=
        List.mem_of_mem_filter hk
      rw [show getRequiredParametersForType "business"
          = ["businessType", "revenue", "employees"] by decide] at hk2
      simp only [List.mem_cons, List.not_mem_nil, or_false] at hk2
      rcases hk2 with rfl | rfl | rfl <;> rfl
    rw [← hq]
    simp [handlePremiumCalculationModel, hm]

/-- Parameters carrying only an age, used as the C2 witness. -/
def collectW : Params := [("age", JsVal.num 41)]

theorem premium_missing_params_amended_witness :
    missingRequired "auto" collectW ≠ [] ∧
    handlePremiumCalculationModel false (some "auto") collectW =
      OrchestratorResponse.collectParams "auto" (missingRequired "auto" collectW)
        ((missingRequired "auto" collectW).filterMap questionFor) := by
  have hm : missingRequired "auto" collectW ≠ [] := by decide
  exact ⟨hm,
    ((premium_missing_params_amended collectW).2.2.2.1 "auto" (Or.inl rfl) hm).1⟩

/-- C6: the life branch computes annual premium equal to
round((coverage / 1000) × rate-per-thousand), with the rate chosen by the
age brackets <35, <45, <55, ≥55 and strictly increasing across them. -/
theorem lifePremium_formula :
    (∀ age coverage : ℚ, age ≠ 0 → coverage ≠ 0 →
      calculatePremiumModel "life"
          [("age", JsVal.num age), ("coverage", JsVal.num coverage)] =
        CalcResult.success (jsRound (coverage / 1000 * lifeRatePerThousand age))
          [("baseCoverage", coverage), ("ageRate", lifeRatePerThousand age),
           ("annualPremium",
             ((jsRound (coverage / 1000 * lifeRatePerThousand age) : ℤ) : ℚ)),
           ("monthlyPremium",
             ((jsRound (coverage / 1000 * lifeRatePerThousand age / 12) : ℤ) : ℚ))]) ∧
    (∀ age : ℚ,
      (age < 35 → lifeRatePerThousand age = 7/2) ∧
      (35 ≤ age → age < 45 → lifeRatePerThousand age = 17/2) ∧
      (45 ≤ age → age < 55 → lifeRatePerThousand age = 37/2) ∧
      (55 ≤ age → lifeRatePerThousand age = 75/2)) ∧
    ((7 : ℚ)/2 < 17/2 ∧ (17 : ℚ)/2 < 37/2 ∧ (37 : ℚ)/2 < 75/2) := by
  refine ⟨?_, ?_, by norm_num⟩
  · intro age coverage ha hc
    simp only [calculatePremiumModel, lowerStr_life, calcSwitch]
    simp [pickNum, pickNumO, getParam, ha, hc]
  · intro age
    unfold lifeRatePerThousand
    refine ⟨?_, ?_, ?_, ?_⟩ <;> intros <;> split_ifs <;> first | rfl | linarith

theorem lifePremium_formula_witness :
    calculatePremiumModel "life"
        [("age", JsVal.num 41), ("coverage", JsVal.num 500000)] =
      CalcResult.success (jsRound (500000 / 1000 * lifeRatePerThousand 41))
        [("baseCoverage", 500000), ("ageRate", lifeRatePerThousand 41),
         ("annualPremium",
           ((jsRound (500000 / 1000 * lifeRatePerThousand 41) : ℤ) : ℚ)),
         ("monthlyPremium",
           ((jsRound (500000 / 1000 * lifeRatePerThousand 41 / 12) : ℤ) : ℚ))] ∧
    jsRound (500000 / 1000 * lifeRatePerThousand 41) = 4250 := by
  refine ⟨lifePremium_formula.1 41 500000 (by norm_num) (by norm_num), ?_⟩
  norm_num [lifeRatePerThousand, jsRound]

/-- Auto parameters carrying `driverAge` instead of `age`, used in the C10
counterexample. -/
def autoDriverAgeParams : Params :=
  [("vehicleValue", JsVal.num 50000), ("driverAge", JsVal.num 41),
   ("location", JsVal.str "accra")]

/-- C10 counterexample: with `vehicleValue`, `driverAge` and `location` all
present and truthy (but `age` absent), calculatePremium for auto fails —
so the presence of `driverAge` does not satisfy the required-parameter
check, refuting the claimed "age (or driverAge)" success condition. -/
theorem auto_driverAge_not_counted_counterexample :
    truthyO (getParam autoDriverAgeParams "vehicleValue") = true ∧
    truthyO (getParam autoDriverAgeParams "driverAge") = true ∧
    truthyO (getParam autoDriverAgeParams "location") = true ∧
    calculatePremiumModel "auto" autoDriverAgeParams =
      CalcResult.failure "Missing required parameters for calculation" := by
  refine ⟨by decide, by decide, by decide, ?_⟩
  simp only [calculatePremiumModel, lowerStr_auto, calcSwitch]
  have hreq : hasRequiredAutoParams autoDriverAgeParams = false := by decide
  simp [hreq]

/-- C10 (amended): for auto, calculatePremium returns a successful quote
exactly when `vehicleValue`, `age` and `location` are all present and
truthy (the presence of `driverAge` alone does not count, although its
value takes precedence as the driver age used in the calculation);
`coverageType` is not consulted by the required-parameter check, and when
absent it silently defaults to `comprehensive`, as `drivingHistory`
defaults to `clean`. -/
theorem auto_required_check_amended (p : Params) :
    ((calculatePremiumModel "auto" p).isSuccess = true ↔
      (truthyO (getParam p "vehicleValue") = true ∧
       truthyO (getParam p "age") = true ∧
       truthyO (getParam p "location") = true)) ∧
    (∀ v : JsVal,
      hasRequiredAutoParams (("coverageType", v) :: p) = hasRequiredAutoParams p) ∧
    ((autoArgsOf p).driverAge = pickNum p ["driverAge", "driver_age", "age"] 0) ∧
    (getParam p "coverageType" = none → getParam p "coverage_type" = none →
      (autoArgsOf p).coverageType = "comprehensive") ∧
    (getParam p "drivingHistory" = none → getParam p "driving_history" = none →
      (autoArgsOf p).drivingHistory = "clean") := by
  refine ⟨?_, ?_, rfl, ?_, ?_⟩
  · simp only [calculatePremiumModel, lowerStr_auto, calcSwitch]
    by_cases hreq : hasRequiredAutoParams p = true
    · simp only [hreq, if_true, CalcResult.isSuccess]
      simp only [hasRequiredAutoParams, Bool.and_eq_true] at hreq
      exact iff_of_true trivial ⟨hreq.1.1, hreq.1.2, hreq.2⟩
    · simp only [Bool.not_eq_true] at hreq
      simp only [hreq, Bool.false_eq_true, if_false, CalcResult.isSuccess]
      simp only [hasRequiredAutoParams, Bool.and_eq_true] at hreq
      constructor
      · intro hfalse
        exact absurd hfalse (by simp)
      · intro ⟨h1, h2, h3⟩
        rw [h1, h2, h3] at hreq
        simp at hreq
  · intro v
    have h1 : getParam (("coverageType", v) :: p) "vehicleValue"
        = getParam p "vehicleValue" := by
      simp [getParam, List.find?]
    have h2 : getParam (("coverageType", v) :: p) "age" = getParam p "age" := by
      simp [getParam, List.find?]
    have h3 : getParam (("coverageType", v) :: p) "location"
        = getParam p "location" := by
      simp [getParam, List.find?]
    simp [hasRequiredAutoParams, h1, h2, h3]
  · intro h1 h2
    simp [autoArgsOf, pickStr, h1, h2]
  · intro h1 h2
    simp [autoArgsOf, pickStr, h1, h2]

/-- Parameters with only a vehicle value, used as the C10 witness. -/
def autoDefaultW : Params := [("vehicleValue", JsVal.num 50000)]

theorem auto_required_check_amended_witness :
    getParam autoDefaultW "coverageType" = none ∧
    (autoArgsOf autoDefaultW).coverageType = "comprehensive" ∧
    (autoArgsOf autoDefaultW).drivingHistory = "clean" := by
  refine ⟨by decide, ?_, ?_⟩
  · exact (auto_required_check_amended autoDefaultW).2.2.2.1 (by decide) (by decide)
  · exact (auto_required_check_amended autoDefaultW).2.2.2.2 (by decide) (by decide)

/-! ## Lead persistence (LeadService.ts) -/

/-- JavaScript `x || d` on an optional string: missing and `""` are falsy. -/
def jsOrStr (x : Option String) (d : String) : String :=
  match x with
  | none => d
  | some s => if s = "" then d else s

/-- Truthiness of an optional string field (`if (leadData.email)`). -/
def strTruthy (x : Option String) : Bool :=
  match x with
  | none => false
  | some s => Decidable.decide (s ≠ "")

/-- A stored lead (LeadService.ts, `Lead` interface).  The generated `id`,
the `metadata` blob and the `createdAt`/`updatedAt` timestamps are
wall-clock/random data and are not modelled. -/
structure Lead where
  name : Option String
  email : Option String
  phone : Option String
  source : String
  interests : List String
  urgencyLevel : String
  score : ℚ
  status : String
  nextSteps : List String
deriving DecidableEq, Repr

/-- The `CaptureLeadData` input of LeadService.captureLead. -/
structure CaptureLeadData where
  userId : String
  name : Option String
  email : Option String
  phone : Option String
  source : String
  productInterest : String
  score : ℚ
deriving DecidableEq, Repr

/-- The loose input of LeadService.createLead. -/
structure CreateLeadData where
  name : Option String
  email : Option String
  phone : Option String
  source : Option String
  interests : Option (List String)
  urgencyLevel : Option String
deriving DecidableEq, Repr

/-- LeadService.determineUrgencyLevel (lines 146-150). -/
def determineUrgencyLevel (score : ℚ) : String :=
  if 17/2 ≤ score then "high" else if 13/2 ≤ score then "medium" else "low"

/-- LeadService.generateNextSteps (lines 152-180): urgency-based steps
followed by one step per recognised interest. -/
def generateNextSteps (urgencyLevel : Option String) (interests : List String) :
    List String :=
  (if urgencyLevel = some "high" then
      ["Contact within 1 hour", "Prepare personalized quote"]
    else if urgencyLevel = some "medium" then
      ["Contact within 24 hours", "Send educational content"]
    else ["Add to nurture sequence", "Contact within 3 days"]) ++
  (if interests.contains "auto" then ["Prepare auto insurance materials"] else []) ++
  (if interests.contains "health" then ["Prepare health insurance comparison"] else []) ++
  (if interests.contains "life" then ["Prepare life insurance information"] else []) ++
  (if interests.contains "business" then ["Prepare business insurance proposal"] else [])

/-- The source-quality table of LeadService.calculateLeadScore
(`sourceScores[leadData.source] || 5`). -/
def sourceScore (source : Option String) : ℚ :=
  match source with
  | some "viral_quiz" => 20
  | some "viral_challenge" => 18
  | some "qr_code" => 15
  | some "referral" => 25
  | some "social_media" => 10
  | some "web_form" => 12
  | some "chat" => 15
  | _ => 5

/-- LeadService.calculateLeadScore (lines 118-144): contact-info,
interest, urgency and source points, clamped by
`Math.min(100, Math.max(0, score))`. -/
def calculateLeadScore (d : CreateLeadData) : ℚ :=
  let s : ℚ :=
    (if strTruthy d.email then 20 else 0) +
    (if strTruthy d.phone then 25 else 0) +
    (if strTruthy d.name then 15 else 0) +
    (if 0 < (d.interests.getD []).length then 20 else 0) +
    (if d.urgencyLevel = some "high" then 15 else 0) +
    (if d.urgencyLevel = some "medium" then 10 else 0) +
    sourceScore d.source
  jsMin 100 (jsMax 0 s)

/-- LeadService.captureLead (lines 35-69): stores `leadData.score`
verbatim — no clamping is applied. -/
def captureLead (d : CaptureLeadData) : Lead :=
  { name := d.name
    email := d.email
    phone := d.phone
    source := d.source
    interests := [d.productInterest]
    urgencyLevel := determineUrgencyLevel d.score
    score := d.score
    status := "new"
    nextSteps := generateNextSteps (some (determineUrgencyLevel d.score))
      [d.productInterest] }

/-- LeadService.createLead (lines 71-94): the score is computed by
calculateLeadScore (and is therefore clamped to [0,100]). -/
def createLead (d : CreateLeadData) : Lead :=
  { name := d.name
    email := d.email
    phone := d.phone
    source := jsOrStr d.source "web_form"
    interests := d.interests.getD []
    urgencyLevel := jsOrStr d.urgencyLevel "medium"
    score := calculateLeadScore d
    status := "new"
    nextSteps := generateNextSteps d.urgencyLevel (d.interests.getD []) }

theorem jsMax_zero_le (x : ℚ) : 0 ≤ jsMax 0 x := by
  unfold jsMax
  split_ifs with h <;> linarith

theorem jsMin_clamp_mem (c x : ℚ) (hc : 0 ≤ c) (hx : 0 ≤ x) :
    0 ≤ jsMin c x ∧ jsMin c x ≤ c := by
  unfold jsMin
  split_ifs with h <;> constructor <;> linarith

theorem validateLeadAnalysis_confidence (raw : RawLead) (mc : ℕ) :
    (validateLeadAnalysis raw mc).confidence = validatedConfidence raw := by
  simp only [validateLeadAnalysis]
  split_ifs <;> rfl

/-- An over-range capture payload, used in the C8 counterexample. -/
def overRangeCapture : CaptureLeadData :=
  { userId := "whatsapp_233555000111"
    name := none
    email := none
    phone := some "233555000111"
    source := "whatsapp"
    productInterest := "auto"
    score := 150 }

/-- C8 counterexample: captureLead stores the caller-provided score
verbatim, so a lead with score 150 — outside [0,100] — is stored,
refuting the claim that every stored lead (including those created via
captureLead) has score in [0,100]. -/
theorem captureLead_score_unclamped_counterexample :
    (captureLead overRangeCapture).score = 150 ∧
    ¬((captureLead overRangeCapture).score ≤ 100) := by
  constructor
  · rfl
  · norm_num [captureLead, overRangeCapture]

/-- C8 (amended): every LeadAnalysisResult produced by the scorer (on
success and on the failure fallback alike) has score in [0,10] and
confidence in [0,1]; leads created via createLead have score in [0,100]
because calculateLeadScore clamps; captureLead, however, stores the
provided score verbatim, without clamping. -/
theorem leadScore_bounds_amended :
    (∀ (llm : Option RawLead) (mc : ℕ),
      0 ≤ (shouldCaptureLeadModel llm mc).score ∧
      (shouldCaptureLeadModel llm mc).score ≤ 10 ∧
      0 ≤ (shouldCaptureLeadModel llm mc).confidence ∧
      (shouldCaptureLeadModel llm mc).confidence ≤ 1) ∧
    (∀ d : CreateLeadData,
      0 ≤ (createLead d).score ∧ (createLead d).score ≤ 100) ∧
    (∀ d : CaptureLeadData, (captureLead d).score = d.score) := by
  refine ⟨?_, ?_, fun d => rfl⟩
  · intro llm mc
    cases llm with
    | none =>
      refine ⟨le_refl 0, by norm_num [shouldCaptureLeadModel, leadFallbackResult],
        by norm_num [shouldCaptureLeadModel, leadFallbackResult],
        by norm_num [shouldCaptureLeadModel, leadFallbackResult]⟩
    | some raw =>
      have hs : (shouldCaptureLeadModel (some raw) mc).score
          = validatedScore raw := validateLeadAnalysis_score raw mc
      have hc : (shouldCaptureLeadModel (some raw) mc).confidence
          = validatedConfidence raw := validateLeadAnalysis_confidence raw mc
      rw [hs, hc]
      unfold validatedScore validatedConfidence
      have h1 := jsMin_clamp_mem 10 (jsMax 0 (jsOrQ raw.score 0)) (by norm_num)
        (jsMax_zero_le _)
      have h2 := jsMin_clamp_mem 1 (jsMax 0 (jsOrQ raw.confidence (1/2))) (by norm_num)
        (jsMax_zero_le _)
      exact ⟨h1.1, h1.2, h2.1, h2.2⟩
  · intro d
    unfold createLead calculateLeadScore
    have := jsMin_clamp_mem 100
      (jsMax 0 ((if strTruthy d.email then 20 else 0) +
        (if strTruthy d.phone then 25 else 0) +
        (if strTruthy d.name then 15 else 0) +
        (if 0 < (d.interests.getD []).length then 20 else 0) +
        (if d.urgencyLevel = some "high" then 15 else 0) +
        (if d.urgencyLevel = some "medium" then 10 else 0) +
        sourceScore d.source)) (by norm_num) (jsMax_zero_le _)
    exact this

/-! ## Premium response rendering (generatePremiumResponseMessage) -/

/-- Label used when a breakdown multiplier is explained: the age line uses
increase/discount, the location line surcharge/discount. -/
inductive ImpactLabel where
  | increase
  | discount
  | surcharge
deriving DecidableEq, Repr

/-- The numeric display content of the quote message built by
AIService.generatePremiumResponseMessage (lines 1374-1429): annual figure,
monthly figure `Math.round(premium / 12)`, the discounted annual payment
`Math.round(premium * 0.95)`, and — for auto — one explanation line per
multiplier that differs from 1.0, carrying
`Math.abs((multiplier - 1) * 100)` per cent.  (A multiplier key absent
from the breakdown would render as NaN in JavaScript; all auto quotes
carry both keys, and the model shows no line for an absent key.) -/
structure PremiumDisplay where
  annual : ℚ
  monthly : ℤ
  annualDiscounted : ℤ
  ageLine : Option (ImpactLabel × ℚ)
  locationLine : Option (ImpactLabel × ℚ)
deriving DecidableEq, Repr

/-- Builds the display content of generatePremiumResponseMessage. -/
def generatePremiumDisplay (premium : ℚ) (bd : Breakdown) (insuranceType : String) :
    PremiumDisplay :=
  { annual := premium
    monthly := jsRound (premium / 12)
    annualDiscounted := jsRound (premium * 95/100)
    ageLine :=
      if insuranceType = "auto" then
        match breakdownNum bd "ageMultiplier" with
        | some m =>
          if m ≠ 1 then
            some (if 1 < m then ImpactLabel.increase else ImpactLabel.discount,
              |(m - 1) * 100|)
          else none
        | none => none
      else none
    locationLine :=
      if insuranceType = "auto" then
        match breakdownNum bd "locationMultiplier" with
        | some m =>
          if m ≠ 1 then
            some (if 1 < m then ImpactLabel.surcharge else ImpactLabel.discount,
              |(m - 1) * 100|)
          else none
        | none => none
      else none }

/-- The monthly figure of the third-party quote message in
AIService.handlePremiumFollowUp (line 467):
`Math.round(calculationResult.premium / 12)`. -/
def thirdPartyQuoteMonthly (premium : ℚ) : ℤ := jsRound (premium / 12)

/-- C9: every displayed monthly figure (in the quote message and in the
third-party follow-up message) equals round(annual / 12), and every
displayed auto-breakdown multiplier line shows
abs((multiplier - 1) × 100) per cent, labelled increase (age) or
surcharge (location) exactly when the multiplier exceeds 1 and discount
exactly when it is below 1. -/
theorem premiumDisplay_rounding (premium : ℚ) (bd : Breakdown) (ty : String) :
    (generatePremiumDisplay premium bd ty).monthly = jsRound (premium / 12) ∧
    thirdPartyQuoteMonthly premium = jsRound (premium / 12) ∧
    (∀ l pct, (generatePremiumDisplay premium bd ty).ageLine = some (l, pct) →
      ∃ m, breakdownNum bd "ageMultiplier" = some m ∧ m ≠ 1 ∧
        pct = |(m - 1) * 100| ∧
        (l = ImpactLabel.increase ↔ 1 < m) ∧
        (l = ImpactLabel.discount ↔ m < 1)) ∧
    (∀ l pct, (generatePremiumDisplay premium bd ty).locationLine = some (l, pct) →
      ∃ m, breakdownNum bd "locationMultiplier" = some m ∧ m ≠ 1 ∧
        pct = |(m - 1) * 100| ∧
        (l = ImpactLabel.surcharge ↔ 1 < m) ∧
        (l = ImpactLabel.discount ↔ m < 1)) := by
  refine ⟨rfl, rfl, ?_, ?_⟩
  · intro l pct hline
    simp only [generatePremiumDisplay] at hline
    split_ifs at hline with hty
    · cases hbd : breakdownNum bd "ageMultiplier" with
      | none => rw [hbd] at hline; exact absurd hline (by simp)
      | some m =>
        rw [hbd] at hline
        dsimp only at hline
        split_ifs at hline with hne hlt
        · have hpair := Option.some.inj hline
          have hl := congrArg Prod.fst hpair
          have hp := congrArg Prod.snd hpair
          simp only at hl hp
          refine ⟨m, rfl, hne, hp.symm, iff_of_true hl.symm hlt, ?_⟩
          constructor
          · intro he
            rw [← hl] at he
            exact absurd he (by simp)
          · intro hm
            linarith
        · have hpair := Option.some.inj hline
          have hl := congrArg Prod.fst hpair
          have hp := congrArg Prod.snd hpair
          simp only at hl hp
          have hm1 : m < 1 := lt_of_le_of_ne (not_lt.mp hlt) hne
          refine ⟨m, rfl, hne, hp.symm, ?_, iff_of_true hl.symm hm1⟩
          constructor
          · intro he
            rw [← hl] at he
            exact absurd he (by simp)
          · intro hgt
            linarith
  · intro l pct hline
    simp only [generatePremiumDisplay] at hline
    split_ifs at hline with hty
    · cases hbd : breakdownNum bd "locationMultiplier" with
      | none => rw [hbd] at hline; exact absurd hline (by simp)
      | some m =>
        rw [hbd] at hline
        dsimp only at hline
        split_ifs at hline with hne hlt
        · have hpair := Option.some.inj hline
          have hl := congrArg Prod.fst hpair
          have hp := congrArg Prod.snd hpair
          simp only at hl hp
          refine ⟨m, rfl, hne, hp.symm, iff_of_true hl.symm hlt, ?_⟩
          constructor
          · intro he
            rw [← hl] at he
            exact absurd he (by simp)
          · intro hm
            linarith
        · have hpair := Option.some.inj hline
          have hl := congrArg Prod.fst hpair
          have hp := congrArg Prod.snd hpair
          simp only at hl hp
          have hm1 : m < 1 := lt_of_le_of_ne (not_lt.mp hlt) hne
          refine ⟨m, rfl, hne, hp.symm, ?_, iff_of_true hl.symm hm1⟩
          constructor
          · intro he
            rw [← hl] at he
            exact absurd he (by simp)
          · intro hgt
            linarith

/-- A concrete auto breakdown used as the C9 witness: a 20% age increase
and a 10% location discount. -/
def autoBdW : Breakdown :=
  [("basePremium", 12000), ("ageMultiplier", 6/5), ("locationMultiplier", 9/10)]

theorem premiumDisplay_rounding_witness :
    (∃ m, breakdownNum autoBdW "ageMultiplier" = some m ∧ m ≠ 1 ∧
      (20 : ℚ) = |(m - 1) * 100| ∧
      (ImpactLabel.increase = ImpactLabel.increase ↔ 1 < m) ∧
      (ImpactLabel.increase = ImpactLabel.discount ↔ m < 1)) ∧
    (∃ m, breakdownNum autoBdW "locationMultiplier" = some m ∧ m ≠ 1 ∧
      (10 : ℚ) = |(m - 1) * 100| ∧
      (ImpactLabel.discount = ImpactLabel.surcharge ↔ 1 < m) ∧
      (ImpactLabel.discount = ImpactLabel.discount ↔ m < 1)) := by
  have e1 : ("basePremium" == "ageMultiplier") = false := by decide
  have e2 : ("ageMultiplier" == "ageMultiplier") = true := by decide
  have e3 : ("basePremium" == "locationMultiplier") = false := by decide
  have e4 : ("ageMultiplier" == "locationMultiplier") = false := by decide
  have e5 : ("locationMultiplier" == "locationMultiplier") = true := by decide
  constructor
  · refine (premiumDisplay_rounding 14688 autoBdW "auto").2.2.1
      ImpactLabel.increase 20 ?_
    simp only [generatePremiumDisplay, breakdownNum, autoBdW, List.find?, e1, e2]
    norm_num
  · refine (premiumDisplay_rounding 14688 autoBdW "auto").2.2.2
      ImpactLabel.discount 10 ?_
    simp only [generatePremiumDisplay, breakdownNum, autoBdW, List.find?, e3, e4, e5]
    norm_num

/-! ## Conversation-memory updates along the processMessage paths -/

/-- The four control-flow paths of AIService.processMessage
(lines 112-163): the premium branch, the enhanced-RAG branch (success),
the legacy branch (success, also taken when enhanced RAG is unavailable or
fails), and the catch/error path. -/
inductive ProcessPath where
  | premiumPath
  | enhancedPath
  | legacyPath
  | errorPath
deriving DecidableEq, Repr

/-- The sequence of conversation-history updates processMessage performs
on each path, composed exactly as in the source: the user message is
pre-appended once at line 121 (`updateConversationHistory(userId,
userMessage, '')`); the premium branch then appends only the reply
(line 132); the enhanced branch runs
`updateConversationHistory(userId, userMessage, response.message)` inside
processWithEnhancedRAG (line 197) and then
`updateConversationHistoryResponse` again at line 142; the legacy branch
likewise at lines 265 and 153; the error path appends the fallback
apology (line 160). -/
def processMessageHistoryModel (path : ProcessPath)
    (userMessage assistantReply fallbackReply : String) (h : List Msg) : List Msg :=
  let h1 := updateConversationHistory h userMessage ""
  match path with
  | ProcessPath.premiumPath => updateConversationHistoryResponse h1 assistantReply
  | ProcessPath.enhancedPath =>
    updateConversationHistoryResponse
      (updateConversationHistory h1 userMessage assistantReply) assistantReply
  | ProcessPath.legacyPath =>
    updateConversationHistoryResponse
      (updateConversationHistory h1 userMessage assistantReply) assistantReply
  | ProcessPath.errorPath => updateConversationHistoryResponse h1 fallbackReply

/-- C5: evaluating the processMessage history updates at a concrete
inbound message shows the enhanced-RAG and legacy paths record the user
turn twice and the assistant turn twice (the pre-append at line 121 plus
the append inside the branch, and the branch reply plus the post-append),
while the premium and error paths record each turn exactly once — so the
claimed exactly-once invariant is violated by the code on the
enhanced/legacy paths. -/
theorem processMessage_double_append_bug :
    processMessageHistoryModel ProcessPath.legacyPath "hello" "hi" "sorry" [] =
      [mkU "hello", mkU "hello", mkA "hi", mkA "hi"] ∧
    (processMessageHistoryModel ProcessPath.legacyPath "hello" "hi" "sorry" []).count
      (mkU "hello") = 2 ∧
    (processMessageHistoryModel ProcessPath.legacyPath "hello" "hi" "sorry" []).count
      (mkA "hi") = 2 ∧
    (processMessageHistoryModel ProcessPath.enhancedPath "hello" "hi" "sorry" []).count
      (mkU "hello") = 2 ∧
    (processMessageHistoryModel ProcessPath.premiumPath "hello" "hi" "sorry" []).count
      (mkU "hello") = 1 ∧
    (processMessageHistoryModel ProcessPath.premiumPath "hello" "hi" "sorry" []).count
      (mkA "hi") = 1 ∧
    (processMessageHistoryModel ProcessPath.errorPath "hello" "hi" "sorry" []).count
      (mkU "hello") = 1 ∧
    (processMessageHistoryModel ProcessPath.errorPath "hello" "hi" "sorry" []).count
      (mkA "sorry") = 1 := by
  decide

/-! ## Age extraction (extractPremiumParameters, AIService.ts lines 1168-1185)

The four case-insensitive age patterns of the source are

* `(?:age|years old|i am|i'm)\s*(\d{1,2})`
* `(\d{1,2})\s*(?:years old|y|age)`
* `\bi am\s*(\d{1,2})`
* `\b(\d{1,2})\s*,?\s*i\s*will`

matched with `message.match(pattern)` (first = leftmost match) and the
loop keeps the first pattern whose captured value parses into [16,100].
The model below implements exactly these patterns over character lists:
leftmost-position scanning, greedy `\d{1,2}` with its single-step
backtracking, greedy `\s*` (whose character class is disjoint from every
following literal, so greediness is exact), and the word-boundary `\b`
that precedes a digit or word character (the previous character must not
be a word character).  Case-insensitivity is handled by ASCII-lowering
the message first; the pattern literals are already lower case and the
classes `\d`, `\s`, `\b` are case-stable. -/

/-- JavaScript `\s` on the ASCII whitespace this code meets. -/
def isSpaceCh (c : Char) : Bool :=
  c == ' ' || c == '\t' || c == '\n' || c == '\r'

/-- JavaScript `\d`. -/
def isDigitCh (c : Char) : Bool := Decidable.decide (48 ≤ c.toNat ∧ c.toNat ≤ 57)

/-- Numeric value of a digit character. -/
def digitVal (c : Char) : ℕ := c.toNat - 48

/-- JavaScript word character (for `\b`). -/
def isWordCh (c : Char) : Bool :=
  Decidable.decide (97 ≤ c.toNat ∧ c.toNat ≤ 122) ||
  Decidable.decide (65 ≤ c.toNat ∧ c.toNat ≤ 90) ||
  isDigitCh c || c == '_'

/-- A `\b` immediately before a word character holds when the previous
character (if any) is not a word character. -/
def atWordStart (prev : Option Char) : Bool :=
  match prev with
  | none => true
  | some c => !isWordCh c

/-- Greedy `\s*`. -/
def dropSpaces (cs : List Char) : List Char := cs.dropWhile isSpaceCh

/-- Greedy `\d{1,2}` at the end of a pattern: captures two digits when two
are available, one otherwise. -/
def capDigits : List Char → Option ℕ
  | c1 :: c2 :: _ =>
    if isDigitCh c1 then
      if isDigitCh c2 then some (10 * digitVal c1 + digitVal c2)
      else some (digitVal c1)
    else none
  | [c1] => if isDigitCh c1 then some (digitVal c1) else none
  | [] => none

/-- Greedy `\d{1,2}` followed by more pattern: tries the two-digit
capture first and backtracks to one digit when the tail fails. -/
def capDigitsThen (tailTest : List Char → Bool) : List Char → Option ℕ
  | c1 :: rest =>
    if isDigitCh c1 then
      match rest with
      | c2 :: rest2 =>
        if isDigitCh c2 && tailTest rest2 then
          some (10 * digitVal c1 + digitVal c2)
        else if tailTest rest then some (digitVal c1)
        else none
      | [] => if tailTest [] then some (digitVal c1) else none
    else none
  | [] => none

/-- The keyword `age`. -/
def kwAge : List Char := "age".data

/-- The keyword `years old`. -/
def kwYearsOld : List Char := "years old".data

/-- The keyword `i am`. -/
def kwIAm : List Char := "i am".data

/-- The keyword of the fourth alternative of pattern 1 (`i` apostrophe `m`). -/
def kwIm : List Char := ['i', '\'', 'm']

/-- The literal `will` of pattern 4. -/
def kwWill : List Char := "will".data

/-- Pattern 1 at one position: `(?:age|years old|i am|i'm)\s*(\d{1,2})`.
The four alternatives start with pairwise-incompatible prefixes, so at
most one can apply at a position. -/
def p1At (cs : List Char) : Option ℕ :=
  if kwAge.isPrefixOf cs then capDigits (dropSpaces (cs.drop 3))
  else if kwYearsOld.isPrefixOf cs then capDigits (dropSpaces (cs.drop 9))
  else if kwIAm.isPrefixOf cs then capDigits (dropSpaces (cs.drop 4))
  else if kwIm.isPrefixOf cs then capDigits (dropSpaces (cs.drop 3))
  else none

/-- The tail of pattern 2 after the digits: `\s*(?:years old|y|age)`. -/
def p2Tail (cs : List Char) : Bool :=
  let r := dropSpaces cs
  kwYearsOld.isPrefixOf r || ['y'].isPrefixOf r || kwAge.isPrefixOf r

/-- Pattern 2 at one position: `(\d{1,2})\s*(?:years old|y|age)`. -/
def p2At (cs : List Char) : Option ℕ := capDigitsThen p2Tail cs

/-- Pattern 3 at one position: `\bi am\s*(\d{1,2})`. -/
def p3At (prev : Option Char) (cs : List Char) : Option ℕ :=
  if atWordStart prev && kwIAm.isPrefixOf cs then
    capDigits (dropSpaces (cs.drop 4))
  else none

/-- The tail of pattern 4 after the digits: `\s*,?\s*i\s*will`.  The
optional comma is deterministic: after the greedy `\s*` the next literal
is `i`, so a present comma must be consumed. -/
def p4Tail (cs : List Char) : Bool :=
  let r1 := dropSpaces cs
  let r2 := match r1 with
    | ',' :: t => t
    | _ => r1
  match dropSpaces r2 with
  | 'i' :: t => kwWill.isPrefixOf (dropSpaces t)
  | _ => false

/-- Pattern 4 at one position: `\b(\d{1,2})\s*,?\s*i\s*will`. -/
def p4At (prev : Option Char) (cs : List Char) : Option ℕ :=
  if atWordStart prev then capDigitsThen p4Tail cs else none

/-- Leftmost-match scan for a position matcher without word-boundary
context. -/
def scanNoB (f : List Char → Option ℕ) : List Char → Option ℕ
  | [] => none
  | c :: rest =>
    match f (c :: rest) with
    | some n => some n
    | none => scanNoB f rest

/-- Leftmost-match scan threading the previous character for `\b`. -/
def scanWithPrev (f : Option Char → List Char → Option ℕ) :
    Option Char → List Char → Option ℕ
  | _, [] => none
  | prev, c :: rest =>
    match f prev (c :: rest) with
    | some n => some n
    | none => scanWithPrev f (some c) rest

/-- The validity filter of the extraction loop:
`age >= 16 && age <= 100`. -/
def ageInRange (a : ℕ) : Bool := Decidable.decide (16 ≤ a ∧ a ≤ 100)

/-- One step of the pattern loop: keep this pattern's first match when it
is in range, otherwise move to the next pattern (an out-of-range match is
discarded, not clamped, and does not stop the loop). -/
def tryNext (r : Option ℕ) (next : Option ℕ) : Option ℕ :=
  match r with
  | some a => if ageInRange a then some a else next
  | none => next

/-- The age-extraction loop of extractPremiumParameters over a
lower-cased character list: the four patterns in source order. -/
def extractAgeL (cs : List Char) : Option ℕ :=
  tryNext (scanNoB p1At cs)
    (tryNext (scanNoB p2At cs)
      (tryNext (scanWithPrev p3At none cs)
        (tryNext (scanWithPrev p4At none cs) none)))

/-- The `params.age` field produced by extractPremiumParameters for a
message: the patterns carry the `i` flag, modelled by ASCII-lowering the
message first. -/
def extractAgeFromMessage (s : String) : Option ℕ :=
  extractAgeL (s.data.map charLower)

theorem digitVal_le_nine {c : Char} (h : isDigitCh c = true) : digitVal c ≤ 9 := by
  simp only [isDigitCh, decide_eq_true_eq] at h
  unfold digitVal
  omega

theorem capDigits_le (cs : List Char) (a : ℕ) (h : capDigits cs = some a) :
    a ≤ 99 := by
  cases cs with
  | nil => simp [capDigits] at h
  | cons c1 rest =>
    cases rest with
    | nil =>
      simp only [capDigits] at h
      split_ifs at h with h1
      cases h
      have := digitVal_le_nine h1
      omega
    | cons c2 rest2 =>
      simp only [capDigits] at h
      split_ifs at h with h1 h2
      · cases h
        have d1 := digitVal_le_nine h1
        have d2 := digitVal_le_nine h2
        omega
      · cases h
        have := digitVal_le_nine h1
        omega

theorem capDigitsThen_le (t : List Char → Bool) (cs : List Char) (a : ℕ)
    (h : capDigitsThen t cs = some a) : a ≤ 99 := by
  cases cs with
  | nil => simp [capDigitsThen] at h
  | cons c1 rest =>
    cases rest with
    | nil =>
      simp only [capDigitsThen] at h
      split_ifs at h with h1 h2
      cases h
      have := digitVal_le_nine h1
      omega
    | cons c2 rest2 =>
      simp only [capDigitsThen] at h
      split_ifs at h with h1 h2 h3
      · rw [Bool.and_eq_true] at h2
        cases h
        have d1 := digitVal_le_nine h1
        have d2 := digitVal_le_nine h2.1
        omega
      · cases h
        have := digitVal_le_nine h1
        omega

theorem p1At_le (cs : List Char) (a : ℕ) (h : p1At cs = some a) : a ≤ 99 := by
  unfold p1At at h
  split_ifs at h <;> exact capDigits_le _ _ h

theorem p2At_le (cs : List Char) (a : ℕ) (h : p2At cs = some a) : a ≤ 99 :=
  capDigitsThen_le _ _ _ h

theorem p3At_le (prev : Option Char) (cs : List Char) (a : ℕ)
    (h : p3At prev cs = some a) : a ≤ 99 := by
  unfold p3At at h
  split_ifs at h
  exact capDigits_le _ _ h

theorem p4At_le (prev : Option Char) (cs : List Char) (a : ℕ)
    (h : p4At prev cs = some a) : a ≤ 99 := by
  unfold p4At at h
  split_ifs at h
  exact capDigitsThen_le _ _ _ h

theorem scanNoB_some (f : List Char → Option ℕ) (cs : List Char) (a : ℕ)
    (h : scanNoB f cs = some a) : ∃ t, f t = some a := by
  induction cs with
  | nil => simp [scanNoB] at h
  | cons c rest ih =>
    simp only [scanNoB] at h
    cases hf : f (c :: rest) with
    | some n =>
      rw [hf] at h
      exact ⟨c :: rest, hf.trans h⟩
    | none =>
      rw [hf] at h
      exact ih h

theorem scanWithPrev_some (f : Option Char → List Char → Option ℕ)
    (prev : Option Char) (cs : List Char) (a : ℕ)
    (h : scanWithPrev f prev cs = some a) : ∃ q t, f q t = some a := by
  induction cs generalizing prev with
  | nil => simp [scanWithPrev] at h
  | cons c rest ih =>
    simp only [scanWithPrev] at h
    cases hf : f prev (c :: rest) with
    | some n =>
      rw [hf] at h
      exact ⟨prev, c :: rest, hf.trans h⟩
    | none =>
      rw [hf] at h
      exact ih (some c) h

theorem tryNext_some (r next : Option ℕ) (a : ℕ) (h : tryNext r next = some a) :
    (r = some a ∧ ageInRange a = true) ∨ next = some a := by
  cases r with
  | none => exact Or.inr h
  | some b =>
    simp only [tryNext] at h
    split_ifs at h with hb
    · cases h
      exact Or.inl ⟨rfl, hb⟩
    · exact Or.inr h

theorem ageInRange_bounds {a : ℕ} (h : ageInRange a = true) :
    16 ≤ a ∧ a ≤ 100 := by
  simpa [ageInRange] using h

theorem extractAgeL_inRange (cs : List Char) (a : ℕ)
    (h : extractAgeL cs = some a) : 16 ≤ a ∧ a ≤ 99 := by
  unfold extractAgeL at h
  rcases tryNext_some _ _ _ h with ⟨h1, hr⟩ | h
  · obtain ⟨t, ht⟩ := scanNoB_some _ _ _ h1
    exact ⟨(ageInRange_bounds hr).1, p1At_le _ _ ht⟩
  rcases tryNext_some _ _ _ h with ⟨h1, hr⟩ | h
  · obtain ⟨t, ht⟩ := scanNoB_some _ _ _ h1
    exact ⟨(ageInRange_bounds hr).1, p2At_le _ _ ht⟩
  rcases tryNext_some _ _ _ h with ⟨h1, hr⟩ | h
  · obtain ⟨q, t, ht⟩ := scanWithPrev_some _ _ _ _ h1
    exact ⟨(ageInRange_bounds hr).1, p3At_le _ _ _ ht⟩
  rcases tryNext_some _ _ _ h with ⟨h1, hr⟩ | h
  · obtain ⟨q, t, ht⟩ := scanWithPrev_some _ _ _ _ h1
    exact ⟨(ageInRange_bounds hr).1, p4At_le _ _ _ ht⟩
  · exact absurd h (by simp)

/-- The two-character digit sequence of a value written as two digits. -/
def twoDigits (d1 d2 : ℕ) : List Char := [Nat.digitChar d1, Nat.digitChar d2]

/-- Canonical text of the first documented pattern shape: `age NN`. -/
def ageTxt (d1 d2 : ℕ) : List Char := "age ".data ++ twoDigits d1 d2

/-- Canonical text of the second documented pattern shape: `NN years old`. -/
def yearsTxt (d1 d2 : ℕ) : List Char := twoDigits d1 d2 ++ " years old".data

/-- Canonical text of the third documented pattern shape: `i am NN`. -/
def iamTxt (d1 d2 : ℕ) : List Char := "i am ".data ++ twoDigits d1 d2

/-- Canonical text of the fourth documented pattern shape:
`NN, i will …`. -/
def willTxt (d1 d2 : ℕ) : List Char := twoDigits d1 d2 ++ ", i will prefer".data

/-- C4 (amended): every age extractPremiumParameters returns lies in
[16, 99] — an out-of-range match is discarded, never clamped — and on
each documented pattern shape ("age NN", "NN years old", "i am NN",
"NN, i will …") with an arbitrary two-digit value the extractor returns
exactly that integer when it is at least 16 and no age at all when it is
below 16.  The upper end 100 of the claimed range, although allowed by
the loop's explicit `age <= 100` check, is unreachable because every
pattern captures at most two digits (`\d{1,2}` — see the
counterexample). -/
theorem ageExtraction_range_and_patterns :
    (∀ (s : String) (a : ℕ), extractAgeFromMessage s = some a →
      16 ≤ a ∧ a ≤ 99) ∧
    (∀ d1 d2 : ℕ, d1 < 10 → d2 < 10 →
      ((16 ≤ 10 * d1 + d2) →
        extractAgeL (ageTxt d1 d2) = some (10 * d1 + d2) ∧
        extractAgeL (yearsTxt d1 d2) = some (10 * d1 + d2) ∧
        extractAgeL (iamTxt d1 d2) = some (10 * d1 + d2) ∧
        extractAgeL (willTxt d1 d2) = some (10 * d1 + d2)) ∧
      ((10 * d1 + d2 < 16) →
        extractAgeL (ageTxt d1 d2) = none ∧
        extractAgeL (yearsTxt d1 d2) = none ∧
        extractAgeL (iamTxt d1 d2) = none ∧
        extractAgeL (willTxt d1 d2) = none)) ∧
    extractAgeFromMessage "I am 41" = some 41 ∧
    extractAgeFromMessage "Age 17, I will check" = some 17 := by
  refine ⟨fun s a h => extractAgeL_inRange _ _ h, ?_, by decide, by decide⟩
  intro d1 d2 h1 h2
  interval_cases d1 <;> interval_cases d2 <;> decide

theorem ageExtraction_range_and_patterns_witness :
    extractAgeL (ageTxt 4 1) = some (10 * 4 + 1) ∧ (16 ≤ 41 ∧ 41 ≤ 99) := by
  refine ⟨((ageExtraction_range_and_patterns.2.1 4 1 (by norm_num)
    (by norm_num)).1 (by norm_num)).1, ?_⟩
  exact ageExtraction_range_and_patterns.1 "age 41" 41 (by decide)

/-- C4 counterexample: the value 100 lies in the range [16, 100] the
claim states, and "i am 100" (and "age 100") instantiate the documented
pattern shapes at that value, but the extractor returns no age for them:
each pattern captures at most two digits, so only the out-of-range prefix
"10" (or suffix "00") is ever captured and then discarded — refuting the
claim that every value in [16, 100] is returned exactly. -/
theorem ageExtraction_100_counterexample :
    (16 ≤ 100 ∧ 100 ≤ 100) ∧
    extractAgeFromMessage "i am 100" = none ∧
    extractAgeFromMessage "I am 100 years old" = none ∧
    extractAgeFromMessage "age 100" = none :=
  ⟨by norm_num, by decide, by decide, by decide⟩

end InsureAgent
